import Mathlib

/-!
Shallow embedding of the sports-service standings aggregation
(`src/sports-service/main.py`) and the two Bears endpoints built on it.

External data (the schedule retrieved by `nfl.import_schedules` and the
team-metadata table from `nfl.import_team_desc`) is passed in as explicit
parameters: a list of `Game` rows and a lookup from team code to
conference/division.  Python's float `win_pct` is modelled as an exact
rational.  The mutable `standings` dictionary is modelled as a total map
`String → Stats` updated pointwise, exactly mirroring the sequence of
`+=` statements in the Python loop.
-/

namespace NFL

/-- One row of the schedule table: team codes, scores, and the signed
`result` column (`home - away`), which is `none` for a game that has not
been played (a NaN cell in the source data). -/
structure Game where
  home_team : String
  away_team : String
  home_score : Nat
  away_score : Nat
  result : Option Int
deriving DecidableEq, Repr

/-- The per-team accumulator held in the Python `standings` dict:
`{'wins': 0, 'losses': 0, 'ties': 0, 'points_for': 0, 'points_against': 0}`. -/
structure Stats where
  wins : Nat
  losses : Nat
  ties : Nat
  points_for : Nat
  points_against : Nat
deriving DecidableEq, Repr

/-- The all-zero accumulator each team is initialised to. -/
def Stats.zero : Stats := ⟨0, 0, 0, 0, 0⟩

/-- `standings[t] = f(standings[t])`: pointwise update of the standings map. -/
def updateMap (st : String → Stats) (t : String) (f : Stats → Stats) : String → Stats :=
  fun x => if x = t then f (st x) else st x

/-- The body of the Python `for _, game in games.iterrows()` loop: four point
updates for home and away, then the win/loss/tie classification by the sign of
`result`.  The loop only ever sees games with a non-null `result`; the `none`
branch leaves the map unchanged. -/
def applyGame (st : String → Stats) (g : Game) : String → Stats :=
  let st1 := updateMap st g.home_team (fun s => { s with points_for := s.points_for + g.home_score })
  let st2 := updateMap st1 g.home_team (fun s => { s with points_against := s.points_against + g.away_score })
  let st3 := updateMap st2 g.away_team (fun s => { s with points_for := s.points_for + g.away_score })
  let st4 := updateMap st3 g.away_team (fun s => { s with points_against := s.points_against + g.home_score })
  match g.result with
  | some res =>
    if res > 0 then
      updateMap (updateMap st4 g.home_team (fun s => { s with wins := s.wins + 1 }))
        g.away_team (fun s => { s with losses := s.losses + 1 })
    else if res < 0 then
      updateMap (updateMap st4 g.home_team (fun s => { s with losses := s.losses + 1 }))
        g.away_team (fun s => { s with wins := s.wins + 1 })
    else
      updateMap (updateMap st4 g.home_team (fun s => { s with ties := s.ties + 1 }))
        g.away_team (fun s => { s with ties := s.ties + 1 })
  | none => st4

/-- The team universe: `set(games['home_team'].unique()) | set(games['away_team'].unique())`,
computed from the already-filtered games, as a duplicate-free list. -/
def teamsOf (games : List Game) : List String :=
  (games.map (fun g => g.home_team) ++ games.map (fun g => g.away_team)).dedup

/-- One emitted standings record (one element of the `results` list). -/
structure TeamStanding where
  team_name : String
  wins : Nat
  losses : Nat
  ties : Nat
  points_for : Nat
  points_against : Nat
  win_pct : ℚ
  conference : String
  division : String
deriving DecidableEq, Repr

/-- `calculate_standings`: filter to games with a non-null result, fold the
loop body over them starting from all-zero accumulators, then emit one record
per team with the metadata join (`'Unknown'` defaults) and the
`win_pct = (wins + 0.5*ties)/total_games if total_games > 0 else 0` formula. -/
def calculate_standings (games : List Game)
    (team_map : String → Option (String × String)) : List TeamStanding :=
  let completed := games.filter (fun g => g.result.isSome)
  let final := completed.foldl applyGame (fun _ => Stats.zero)
  (teamsOf completed).map (fun team =>
    let stats := final team
    let meta := (team_map team).getD ("Unknown", "Unknown")
    let total_games := stats.wins + stats.losses + stats.ties
    let win_pct : ℚ :=
      if total_games > 0 then
        ((stats.wins : ℚ) + (1 / 2) * (stats.ties : ℚ)) / (total_games : ℚ)
      else 0
    { team_name := team
      wins := stats.wins
      losses := stats.losses
      ties := stats.ties
      points_for := stats.points_for
      points_against := stats.points_against
      win_pct := win_pct
      conference := meta.1
      division := meta.2 })

/-! ### Per-game contributions

`applyGame` only ever adds to the entry of the teams named in the game, so its
effect on any team `t` is the addition of the following per-game deltas. -/

/-- Wins delta of game `g` for team `t`. -/
def contribW (g : Game) (t : String) : Nat :=
  match g.result with
  | some res =>
      (if t = g.home_team ∧ res > 0 then 1 else 0) +
      (if t = g.away_team ∧ res < 0 then 1 else 0)
  | none => 0

/-- Losses delta of game `g` for team `t`. -/
def contribL (g : Game) (t : String) : Nat :=
  match g.result with
  | some res =>
      (if t = g.home_team ∧ res < 0 then 1 else 0) +
      (if t = g.away_team ∧ res > 0 then 1 else 0)
  | none => 0

/-- Ties delta of game `g` for team `t`. -/
def contribT (g : Game) (t : String) : Nat :=
  match g.result with
  | some res =>
      (if t = g.home_team ∧ res = 0 then 1 else 0) +
      (if t = g.away_team ∧ res = 0 then 1 else 0)
  | none => 0

/-- `points_for` delta of game `g` for team `t`. -/
def contribPF (g : Game) (t : String) : Nat :=
  (if t = g.home_team then g.home_score else 0) +
  (if t = g.away_team then g.away_score else 0)

/-- `points_against` delta of game `g` for team `t`. -/
def contribPA (g : Game) (t : String) : Nat :=
  (if t = g.home_team then g.away_score else 0) +
  (if t = g.away_team then g.home_score else 0)

set_option maxHeartbeats 2000000 in
theorem applyGame_apply (st : String → Stats) (g : Game) (t : String) :
    applyGame st g t =
      ⟨(st t).wins + contribW g t, (st t).losses + contribL g t,
       (st t).ties + contribT g t, (st t).points_for + contribPF g t,
       (st t).points_against + contribPA g t⟩ := by
  cases hr : g.result with
  | none =>
      by_cases h1 : t = g.home_team
      · by_cases h2 : t = g.away_team
        · simp only [applyGame, updateMap, contribW, contribL, contribT, contribPF, contribPA,
            hr, ite_apply, ite_and, if_pos h1, if_pos h2]
          simp <;> omega
        · simp only [applyGame, updateMap, contribW, contribL, contribT, contribPF, contribPA,
            hr, ite_apply, ite_and, if_pos h1, if_neg h2]
          simp <;> omega
      · by_cases h2 : t = g.away_team
        · simp only [applyGame, updateMap, contribW, contribL, contribT, contribPF, contribPA,
            hr, ite_apply, ite_and, if_neg h1, if_pos h2]
          simp <;> omega
        · simp only [applyGame, updateMap, contribW, contribL, contribT, contribPF, contribPA,
            hr, ite_apply, ite_and, if_neg h1, if_neg h2]
          simp <;> omega
  | some res =>
      by_cases h1 : t = g.home_team
      · by_cases h2 : t = g.away_team
        · simp only [applyGame, updateMap, contribW, contribL, contribT, contribPF, contribPA,
            hr, ite_apply, ite_and, if_pos h1, if_pos h2]
          split_ifs <;> simp <;> omega
        · simp only [applyGame, updateMap, contribW, contribL, contribT, contribPF, contribPA,
            hr, ite_apply, ite_and, if_pos h1, if_neg h2]
          split_ifs <;> simp <;> omega
      · by_cases h2 : t = g.away_team
        · simp only [applyGame, updateMap, contribW, contribL, contribT, contribPF, contribPA,
            hr, ite_apply, ite_and, if_neg h1, if_pos h2]
          split_ifs <;> simp <;> omega
        · simp only [applyGame, updateMap, contribW, contribL, contribT, contribPF, contribPA,
            hr, ite_apply, ite_and, if_neg h1, if_neg h2]
          split_ifs <;> simp <;> omega

theorem foldl_applyGame (l : List Game) (st : String → Stats) (t : String) :
    (l.foldl applyGame st) t =
      ⟨(st t).wins + (l.map (fun g => contribW g t)).sum,
       (st t).losses + (l.map (fun g => contribL g t)).sum,
       (st t).ties + (l.map (fun g => contribT g t)).sum,
       (st t).points_for + (l.map (fun g => contribPF g t)).sum,
       (st t).points_against + (l.map (fun g => contribPA g t)).sum⟩ := by
  induction l generalizing st with
  | nil => simp
  | cons g l ih =>
      simp only [List.foldl_cons, List.map_cons, List.sum_cons, ih, applyGame_apply]
      simp only [Stats.mk.injEq]
      omega

/-! ### Sums of per-game contributions over the team universe -/

theorem sum_map_zero_of {α : Type} (ts : List α) (f : α → Nat) (h : ∀ t ∈ ts, f t = 0) :
    (ts.map f).sum = 0 := by
  induction ts with
  | nil => rfl
  | cons a ts ih =>
      simp only [List.map_cons, List.sum_cons]
      rw [h a (List.mem_cons_self a ts), ih (fun t ht => h t (List.mem_cons_of_mem a ht))]

theorem sum_map_add_nat {α : Type} (ts : List α) (f h : α → Nat) :
    (ts.map fun t => f t + h t).sum = (ts.map f).sum + (ts.map h).sum := by
  induction ts with
  | nil => rfl
  | cons a ts ih =>
      simp only [List.map_cons, List.sum_cons, ih]
      omega

theorem sum_map_indicator (ts : List String) (x : String) (k : Nat) (hnd : ts.Nodup)
    (hx : x ∈ ts) :
    (ts.map fun t => if t = x then k else 0).sum = k := by
  induction ts with
  | nil => cases hx
  | cons a ts ih =>
      rcases List.mem_cons.mp hx with h | h
      · simp only [List.map_cons, List.sum_cons, if_pos h.symm]
        have hxts : x ∉ ts := fun hmem => (List.nodup_cons.mp hnd).1 (h ▸ hmem)
        have hz : ∀ t ∈ ts, (if t = x then k else 0) = 0 := by
          intro t ht
          have hne : t ≠ x := fun he => hxts (he ▸ ht)
          simp [hne]
        rw [sum_map_zero_of ts _ hz]
        omega
      · have hna : a ≠ x := fun he => (List.nodup_cons.mp hnd).1 (he ▸ h)
        simp only [List.map_cons, List.sum_cons, if_neg hna]
        rw [ih (List.nodup_cons.mp hnd).2 h]
        omega

theorem sum_map_pair_indicator (ts : List String) (x y : String) (a b : Nat)
    (hnd : ts.Nodup) (hx : x ∈ ts) (hy : y ∈ ts) :
    (ts.map fun t => (if t = x then a else 0) + (if t = y then b else 0)).sum = a + b := by
  rw [sum_map_add_nat ts (fun t => if t = x then a else 0) (fun t => if t = y then b else 0),
    sum_map_indicator ts x a hnd hx, sum_map_indicator ts y b hnd hy]

theorem sum_map_comm (ts : List String) (l : List Game) (c : Game → String → Nat) :
    (ts.map fun t => (l.map fun g => c g t).sum).sum
      = (l.map fun g => (ts.map fun t => c g t).sum).sum := by
  induction l with
  | nil =>
      simp only [List.map_nil, List.sum_nil]
      exact sum_map_zero_of ts _ (fun t _ => rfl)
  | cons g l ih =>
      simp only [List.map_cons, List.sum_cons]
      rw [sum_map_add_nat ts (fun t => c g t) (fun t => (l.map fun g' => c g' t).sum), ih]

theorem home_mem_teamsOf {g : Game} {l : List Game} (h : g ∈ l) : g.home_team ∈ teamsOf l := by
  simp only [teamsOf, List.mem_dedup, List.mem_append, List.mem_map]
  exact Or.inl ⟨g, h, rfl⟩

theorem away_mem_teamsOf {g : Game} {l : List Game} (h : g ∈ l) : g.away_team ∈ teamsOf l := by
  simp only [teamsOf, List.mem_dedup, List.mem_append, List.mem_map]
  exact Or.inr ⟨g, h, rfl⟩

theorem teamsOf_nodup (l : List Game) : (teamsOf l).Nodup := List.nodup_dedup _

theorem sum_contribW_eq_sum_contribL (ts : List String) (hnd : ts.Nodup) (g : Game)
    (hh : g.home_team ∈ ts) (ha : g.away_team ∈ ts) :
    (ts.map fun t => contribW g t).sum = (ts.map fun t => contribL g t).sum := by
  cases hr : g.result with
  | none =>
      rw [sum_map_zero_of ts _ (fun t _ => by simp [contribW, hr]),
        sum_map_zero_of ts _ (fun t _ => by simp [contribL, hr])]
  | some res =>
      simp only [contribW, contribL, hr, ite_and]
      rw [sum_map_pair_indicator ts _ _ _ _ hnd hh ha,
        sum_map_pair_indicator ts _ _ _ _ hnd hh ha]
      omega

theorem sum_contribPF_eq_sum_contribPA (ts : List String) (hnd : ts.Nodup) (g : Game)
    (hh : g.home_team ∈ ts) (ha : g.away_team ∈ ts) :
    (ts.map fun t => contribPF g t).sum = (ts.map fun t => contribPA g t).sum := by
  simp only [contribPF, contribPA]
  rw [sum_map_pair_indicator ts _ _ _ _ hnd hh ha,
    sum_map_pair_indicator ts _ _ _ _ hnd hh ha]
  omega

/-- Every record emitted by `calculate_standings` is the record of a team of
the filtered games, and its counters are the sums of the per-game deltas. -/
theorem mem_calculate_standings {games : List Game} {tm : String → Option (String × String)}
    {r : TeamStanding} (hr : r ∈ calculate_standings games tm) :
    r.team_name ∈ teamsOf (games.filter fun g => g.result.isSome) ∧
    r.wins = ((games.filter fun g => g.result.isSome).map fun g => contribW g r.team_name).sum ∧
    r.losses = ((games.filter fun g => g.result.isSome).map fun g => contribL g r.team_name).sum ∧
    r.ties = ((games.filter fun g => g.result.isSome).map fun g => contribT g r.team_name).sum ∧
    r.points_for
      = ((games.filter fun g => g.result.isSome).map fun g => contribPF g r.team_name).sum ∧
    r.points_against
      = ((games.filter fun g => g.result.isSome).map fun g => contribPA g r.team_name).sum ∧
    r.win_pct = (if 0 < r.wins + r.losses + r.ties then
        ((r.wins : ℚ) + (1 / 2) * (r.ties : ℚ)) / ((r.wins + r.losses + r.ties : Nat) : ℚ)
      else 0) := by
  simp only [calculate_standings, List.mem_map] at hr
  obtain ⟨t, ht, hteq⟩ := hr
  subst hteq
  refine ⟨ht, ?_, ?_, ?_, ?_, ?_, ?_⟩ <;>
    simp only [foldl_applyGame, Stats.zero, zero_add, gt_iff_lt]

theorem calculate_standings_names (games : List Game)
    (tm : String → Option (String × String)) :
    (calculate_standings games tm).map (fun r => r.team_name)
      = teamsOf (games.filter fun g => g.result.isSome) := by
  simp [calculate_standings, List.map_map, Function.comp_def]

/-! ### Claim theorems -/

/-- C1: for every input list of games (and metadata table), the sum of `wins`
over all teams in the standings output equals the sum of `losses` over all
teams. -/
theorem c1_sum_wins_eq_sum_losses (games : List Game)
    (tm : String → Option (String × String)) :
    ((calculate_standings games tm).map fun r => r.wins).sum
      = ((calculate_standings games tm).map fun r => r.losses).sum := by
  simp only [calculate_standings, List.map_map, Function.comp_def, foldl_applyGame,
    Stats.zero, zero_add]
  rw [sum_map_comm (teamsOf (games.filter fun g => g.result.isSome))
      (games.filter fun g => g.result.isSome) contribW,
    sum_map_comm (teamsOf (games.filter fun g => g.result.isSome))
      (games.filter fun g => g.result.isSome) contribL]
  refine congrArg List.sum (List.map_congr_left ?_)
  intro g hg
  exact sum_contribW_eq_sum_contribL _ (teamsOf_nodup _) g (home_mem_teamsOf hg)
    (away_mem_teamsOf hg)

/-- C10: for every input list of games (and metadata table), the sum of
`points_for` over all teams in the standings output equals the sum of
`points_against` over all teams. -/
theorem c10_sum_points_for_eq_sum_points_against (games : List Game)
    (tm : String → Option (String × String)) :
    ((calculate_standings games tm).map fun r => r.points_for).sum
      = ((calculate_standings games tm).map fun r => r.points_against).sum := by
  simp only [calculate_standings, List.map_map, Function.comp_def, foldl_applyGame,
    Stats.zero, zero_add]
  rw [sum_map_comm (teamsOf (games.filter fun g => g.result.isSome))
      (games.filter fun g => g.result.isSome) contribPF,
    sum_map_comm (teamsOf (games.filter fun g => g.result.isSome))
      (games.filter fun g => g.result.isSome) contribPA]
  refine congrArg List.sum (List.map_congr_left ?_)
  intro g hg
  exact sum_contribPF_eq_sum_contribPA _ (teamsOf_nodup _) g (home_mem_teamsOf hg)
    (away_mem_teamsOf hg)

/-- C6: the standings output has exactly one record per team code (the list of
emitted team names has no duplicates), and a team code appears among the
emitted records iff it appears as home or away team of some game whose
`result` is non-null. -/
theorem c6_one_record_per_participating_team (games : List Game)
    (tm : String → Option (String × String)) :
    ((calculate_standings games tm).map fun r => r.team_name).Nodup ∧
    ∀ t : String, (t ∈ (calculate_standings games tm).map fun r => r.team_name) ↔
      ∃ g ∈ games, g.result ≠ none ∧ (t = g.home_team ∨ t = g.away_team) := by
  constructor
  · rw [calculate_standings_names]
    exact teamsOf_nodup _
  · intro t
    rw [calculate_standings_names]
    simp only [teamsOf, List.mem_dedup, List.mem_append, List.mem_map, List.mem_filter]
    constructor
    · rintro (⟨g, ⟨hg, hs⟩, rfl⟩ | ⟨g, ⟨hg, hs⟩, rfl⟩)
      · exact ⟨g, hg, by simpa [Option.isSome_iff_ne_none] using hs, Or.inl rfl⟩
      · exact ⟨g, hg, by simpa [Option.isSome_iff_ne_none] using hs, Or.inr rfl⟩
    · rintro ⟨g, hg, hs, (rfl | rfl)⟩
      · exact Or.inl ⟨g, ⟨hg, by simpa [Option.isSome_iff_ne_none] using hs⟩, rfl⟩
      · exact Or.inr ⟨g, ⟨hg, by simpa [Option.isSome_iff_ne_none] using hs⟩, rfl⟩

theorem le_sum_of_mem {x : Nat} {l : List Nat} (h : x ∈ l) : x ≤ l.sum := by
  induction l with
  | nil => cases h
  | cons a l ih =>
      simp only [List.sum_cons]
      rcases List.mem_cons.mp h with h | h
      · subst h; omega
      · have hx := ih h; omega

theorem sum_map_ite_one {α : Type} (l : List α) (p : α → Prop) [DecidablePred p] :
    (l.map fun a => if p a then 1 else 0).sum = l.countP (fun a => decide (p a)) := by
  induction l with
  | nil => rfl
  | cons a l ih =>
      simp only [List.map_cons, List.sum_cons, List.countP_cons, ih]
      by_cases h : p a <;> simp [h] <;> omega

/-- For a completed game between two distinct teams, the combined
win/loss/tie delta for any team is `1` if that team plays in the game and
`0` otherwise. -/
theorem contrib_sum_indicator {g : Game} (t : String) (hres : g.result.isSome = true)
    (hne : g.home_team ≠ g.away_team) :
    contribW g t + contribL g t + contribT g t
      = if t = g.home_team ∨ t = g.away_team then 1 else 0 := by
  obtain ⟨res, hr'⟩ := Option.isSome_iff_exists.mp hres
  simp only [contribW, contribL, contribT, hr', ite_and]
  by_cases h1 : t = g.home_team
  · have h2 : ¬ t = g.away_team := fun h2 => hne (h1.symm.trans h2)
    simp only [if_pos h1, if_neg h2, if_pos (Or.inl h1 : t = g.home_team ∨ t = g.away_team)]
    split_ifs <;> omega
  · by_cases h2 : t = g.away_team
    · simp only [if_pos h2, if_neg h1, if_pos (Or.inr h2 : t = g.home_team ∨ t = g.away_team)]
      split_ifs <;> omega
    · have hor : ¬ (t = g.home_team ∨ t = g.away_team) := by tauto
      simp only [if_neg h1, if_neg h2, if_neg hor]

/-- C2 (amended): provided every game is between two distinct teams, each
emitted record's `wins + losses + ties` equals the number of retained
(non-null-result) games in which that team appears as home or away. -/
theorem c2_games_played_eq_games_participated {games : List Game}
    {tm : String → Option (String × String)} {r : TeamStanding}
    (hdist : ∀ g ∈ games, g.home_team ≠ g.away_team)
    (hr : r ∈ calculate_standings games tm) :
    r.wins + r.losses + r.ties
      = (games.filter fun g => g.result.isSome).countP
          (fun g => decide (r.team_name = g.home_team ∨ r.team_name = g.away_team)) := by
  obtain ⟨-, hw, hl, ht, -, -, -⟩ := mem_calculate_standings hr
  rw [hw, hl, ht,
    ← sum_map_add_nat (games.filter fun g => g.result.isSome)
      (fun g => contribW g r.team_name) (fun g => contribL g r.team_name),
    ← sum_map_add_nat (games.filter fun g => g.result.isSome)
      (fun g => contribW g r.team_name + contribL g r.team_name)
      (fun g => contribT g r.team_name),
    ← sum_map_ite_one (games.filter fun g => g.result.isSome)
      (fun g => r.team_name = g.home_team ∨ r.team_name = g.away_team)]
  refine congrArg List.sum (List.map_congr_left ?_)
  intro g hg
  exact contrib_sum_indicator r.team_name (List.mem_filter.mp hg).2
    (hdist g (List.mem_filter.mp hg).1)

/-- C2 counterexample: a single retained game in which the same team code is
both home and away.  The team appears in exactly one completed game, but the
code records both a win and a loss for it, so `wins + losses + ties = 2`. -/
theorem c2_counterexample_self_game :
    ((calculate_standings [⟨"AAA", "AAA", 3, 0, some 3⟩] (fun _ => none)).map
        fun r => r.wins + r.losses + r.ties) = [2] ∧
    ([(⟨"AAA", "AAA", 3, 0, some 3⟩ : Game)].filter fun g => g.result.isSome).countP
        (fun g => decide ("AAA" = g.home_team ∨ "AAA" = g.away_team)) = 1 := by
  constructor
  · simp [calculate_standings, teamsOf, applyGame, updateMap, Stats.zero]
  · rfl

/-- C4: every emitted record's `win_pct` is the guarded average
`(wins + ties/2) / (wins + losses + ties)` (and `0` when the total is `0`),
and it always lies in `[0, 1]`. -/
theorem c4_win_pct_formula_and_bounds {games : List Game}
    {tm : String → Option (String × String)} {r : TeamStanding}
    (hr : r ∈ calculate_standings games tm) :
    r.win_pct = (if 0 < r.wins + r.losses + r.ties then
        ((r.wins : ℚ) + (1 / 2) * (r.ties : ℚ)) / ((r.wins + r.losses + r.ties : Nat) : ℚ)
      else 0) ∧
    0 ≤ r.win_pct ∧ r.win_pct ≤ 1 := by
  obtain ⟨-, -, -, -, -, -, hw⟩ := mem_calculate_standings hr
  refine ⟨hw, ?_, ?_⟩ <;> rw [hw]
  · split_ifs with h
    · apply div_nonneg
      · positivity
      · exact Nat.cast_nonneg _
    · exact le_refl 0
  · split_ifs with h
    · rw [div_le_one (by exact_mod_cast h)]
      push_cast
      have h1 : (0 : ℚ) ≤ (r.losses : ℚ) := Nat.cast_nonneg _
      have h2 : (0 : ℚ) ≤ (r.ties : ℚ) := Nat.cast_nonneg _
      linarith
    · norm_num

/-- C8: the defensive `total_games = 0` branch is unreachable — every emitted
record has `wins + losses + ties ≥ 1`, because its team appears in at least
one retained game and every retained game increments exactly one of the three
counters for each of its teams. -/
theorem c8_total_games_positive {games : List Game}
    {tm : String → Option (String × String)} {r : TeamStanding}
    (hr : r ∈ calculate_standings games tm) :
    0 < r.wins + r.losses + r.ties := by
  obtain ⟨hmem, hw, hl, ht, -, -, -⟩ := mem_calculate_standings hr
  rw [hw, hl, ht]
  simp only [teamsOf, List.mem_dedup, List.mem_append, List.mem_map] at hmem
  have key : ∃ g ∈ games.filter (fun g => g.result.isSome),
      1 ≤ contribW g r.team_name + contribL g r.team_name + contribT g r.team_name := by
    rcases hmem with ⟨g, hg, he⟩ | ⟨g, hg, he⟩
    · refine ⟨g, hg, ?_⟩
      obtain ⟨res, hr'⟩ := Option.isSome_iff_exists.mp (List.mem_filter.mp hg).2
      simp only [contribW, contribL, contribT, hr', ite_and, if_pos he.symm]
      split_ifs <;> omega
    · refine ⟨g, hg, ?_⟩
      obtain ⟨res, hr'⟩ := Option.isSome_iff_exists.mp (List.mem_filter.mp hg).2
      simp only [contribW, contribL, contribT, hr', ite_and, if_pos he.symm]
      split_ifs <;> omega
  obtain ⟨g, hg, hone⟩ := key
  have hWle : contribW g r.team_name
      ≤ ((games.filter fun g => g.result.isSome).map fun g => contribW g r.team_name).sum :=
    le_sum_of_mem (List.mem_map_of_mem (fun g => contribW g r.team_name) hg)
  have hLle : contribL g r.team_name
      ≤ ((games.filter fun g => g.result.isSome).map fun g => contribL g r.team_name).sum :=
    le_sum_of_mem (List.mem_map_of_mem (fun g => contribL g r.team_name) hg)
  have hTle : contribT g r.team_name
      ≤ ((games.filter fun g => g.result.isSome).map fun g => contribT g r.team_name).sum :=
    le_sum_of_mem (List.mem_map_of_mem (fun g => contribT g r.team_name) hg)
  omega

/-- C5: the fold of the loop body over the retained games is invariant under
permutations of the input game list — every team ends with the same
accumulator. -/
theorem c5_fold_perm_invariant (gs gs' : List Game) (hp : gs.Perm gs')
    (st : String → Stats) (t : String) :
    ((gs.filter fun g => g.result.isSome).foldl applyGame st) t
      = ((gs'.filter fun g => g.result.isSome).foldl applyGame st) t := by
  have hpf : (gs.filter fun g => g.result.isSome).Perm
      (gs'.filter fun g => g.result.isSome) := hp.filter _
  rw [foldl_applyGame, foldl_applyGame]
  have hmap : ∀ c : Game → String → Nat,
      ((gs.filter fun g => g.result.isSome).map fun g => c g t).sum
        = ((gs'.filter fun g => g.result.isSome).map fun g => c g t).sum :=
    fun c => (hpf.map _).sum_eq
  rw [hmap contribW, hmap contribL, hmap contribT, hmap contribPF, hmap contribPA]

/-- C3: in one loop iteration the amount added to the home team's
`points_for` equals the amount added to the away team's `points_against`, and
vice versa; when the two team codes are distinct those common deltas are the
home score and the away score respectively. -/
theorem c3_points_deltas_symmetric (st : String → Stats) (g : Game) :
    ((applyGame st g g.home_team).points_for + (st g.away_team).points_against
        = (st g.home_team).points_for + (applyGame st g g.away_team).points_against) ∧
    ((applyGame st g g.away_team).points_for + (st g.home_team).points_against
        = (st g.away_team).points_for + (applyGame st g g.home_team).points_against) ∧
    (g.home_team ≠ g.away_team →
      (applyGame st g g.home_team).points_for = (st g.home_team).points_for + g.home_score ∧
      (applyGame st g g.away_team).points_against
        = (st g.away_team).points_against + g.home_score ∧
      (applyGame st g g.away_team).points_for = (st g.away_team).points_for + g.away_score ∧
      (applyGame st g g.home_team).points_against
        = (st g.home_team).points_against + g.away_score) := by
  by_cases he : g.home_team = g.away_team
  · simp [applyGame_apply, contribPF, contribPA, he] <;> omega
  · have he' : g.away_team ≠ g.home_team := fun h => he h.symm
    simp [applyGame_apply, contribPF, contribPA, he, he'] <;> omega

/-- One record returned by the Bears summary endpoint: either a found
standings record (with its conference/division attached), or the zero-valued
fallback dict, which carries no conference/division keys (`none`). -/
structure BearsSummary where
  team_name : String
  wins : Nat
  losses : Nat
  ties : Nat
  points_for : Nat
  points_against : Nat
  win_pct : ℚ
  conference : Option String
  division : Option String
deriving DecidableEq, Repr

/-- The body of `get_bears_summary`:
`next((t for t in data if t['team_name'] == 'CHI'), None)` over the standings
collection, with the all-zero `CHI` fallback dict when nothing matches. -/
def get_bears_summary (data : List TeamStanding) : BearsSummary :=
  match data.find? (fun t => t.team_name == "CHI") with
  | some t => ⟨t.team_name, t.wins, t.losses, t.ties, t.points_for, t.points_against,
      t.win_pct, some t.conference, some t.division⟩
  | none => ⟨"CHI", 0, 0, 0, 0, 0, 0, none, none⟩

/-- C7: the single-team summary filter returns the matching standings record
when one is present (under the no-duplicate-team-names invariant the
standings hold), and otherwise returns the zero-valued placeholder with the
conference/division fields omitted — not an error. -/
theorem c7_summary_filter_or_placeholder (data : List TeamStanding) :
    ((∀ r ∈ data, r.team_name ≠ "CHI") →
        get_bears_summary data = ⟨"CHI", 0, 0, 0, 0, 0, 0, none, none⟩) ∧
    (∀ r ∈ data, r.team_name = "CHI" → ((data.map fun s => s.team_name).Nodup) →
        get_bears_summary data = ⟨r.team_name, r.wins, r.losses, r.ties, r.points_for,
          r.points_against, r.win_pct, some r.conference, some r.division⟩) := by
  constructor
  · intro h
    have hnone : data.find? (fun t => t.team_name == "CHI") = none := by
      rw [List.find?_eq_none]
      intro x hx
      simpa using h x hx
    simp [get_bears_summary, hnone]
  · intro r hrmem hrchi hnd
    rcases hsome : data.find? (fun t => t.team_name == "CHI") with _ | t
    · exfalso
      have hno := List.find?_eq_none.mp hsome r hrmem
      simp [hrchi] at hno
    · have htmem : t ∈ data := List.mem_of_find?_eq_some hsome
      have htchi : t.team_name = "CHI" := by
        have := List.find?_some hsome
        simpa using this
      have hteq : t = r :=
        List.inj_on_of_nodup_map hnd htmem hrmem (htchi.trans hrchi.symm)
      subst hteq
      simp [get_bears_summary, hsome]

/-- A tabular data frame as the roster endpoint sees it: a list of column
names and a list of rows, each row mapping a column name to a cell that may
be missing (`none` modelling a NaN/absent value in pandas). -/
structure Frame where
  cols : List String
  rows : List (String → Option String)

/-- The allow-list `cols_to_keep` of `get_bears_roster`. -/
def cols_to_keep : List String :=
  ["player_name", "position", "jersey_number", "status", "college", "years_exp",
   "headshot_url"]

/-- The body of `get_bears_roster`: filter rows to team `CHI`, keep the
allow-listed columns that exist in the frame (`available_cols`), and render
each kept cell with missing values replaced by the empty string
(`fillna('')` followed by `to_dict(orient="records")`, records modelled as
association lists). -/
def get_bears_roster (df : Frame) : List (List (String × String)) :=
  let bears := df.rows.filter (fun row => row "team" == some "CHI")
  let available_cols := cols_to_keep.filter (fun c => df.cols.contains c)
  bears.map (fun row => available_cols.map (fun c => (c, (row c).getD "")))

/-- C9 (amended): each returned roster entry contains exactly the
allow-listed fields that are present among the frame's columns, in
allow-list order, and each kept cell is the row's value with a missing value
rendered as the empty string. -/
theorem c9_roster_fields {df : Frame} {rec : List (String × String)}
    (hrec : rec ∈ get_bears_roster df) :
    rec.map Prod.fst = cols_to_keep.filter (fun c => df.cols.contains c) ∧
    ∃ row ∈ df.rows, (row "team" == some "CHI") = true ∧
      rec = (cols_to_keep.filter (fun c => df.cols.contains c)).map
        (fun c => (c, (row c).getD "")) := by
  simp only [get_bears_roster, List.mem_map] at hrec
  obtain ⟨row, hrow, hreq⟩ := hrec
  subst hreq
  refine ⟨?_, row, (List.mem_filter.mp hrow).1, (List.mem_filter.mp hrow).2, rfl⟩
  rw [List.map_map]
  simp [Function.comp_def]

/-- The frame used to refute C9 as stated: it has a `team` column and a
`player_name` column (whose cell is missing), but none of the other
allow-listed columns. -/
def dfC9 : Frame :=
  ⟨["team", "player_name"],
   [fun c => if c = "team" then some "CHI" else none]⟩

/-- C9 counterexample: on a frame lacking the `college` column, the returned
entry consists of the single field `player_name` (with the missing cell
rendered as `""`), so it does not contain all allow-listed fields. -/
theorem c9_counterexample_missing_column :
    get_bears_roster dfC9 = [[("player_name", "")]] ∧
    ¬ ("college" ∈ (["player_name"] : List String)) ∧
    "college" ∈ cols_to_keep := by
  refine ⟨by decide, by decide, by decide⟩

/-! ### Concrete inputs for the witness theorems -/

/-- Two completed games: a home win `AAA 24 – 17 BBB` and a tie
`AAA 14 – 14 CCC`. -/
def gamesEx : List Game :=
  [⟨"AAA", "BBB", 24, 17, some 7⟩, ⟨"AAA", "CCC", 14, 14, some 0⟩]

/-- The same two games in the opposite order. -/
def gamesExRev : List Game :=
  [⟨"AAA", "CCC", 14, 14, some 0⟩, ⟨"AAA", "BBB", 24, 17, some 7⟩]

/-- An empty metadata table (every team falls back to `Unknown`). -/
def tmEx : String → Option (String × String) := fun _ => none

/-- The first record emitted for `gamesEx`. -/
def rEx : TeamStanding := (calculate_standings gamesEx tmEx).get ⟨0, by decide⟩

/-- A single completed game used for the C3 witness. -/
def gEx : Game := ⟨"AAA", "BBB", 24, 17, some 7⟩

/-- A standings record for team CHI used for the C7 witness. -/
def standingChiEx : TeamStanding :=
  ⟨"CHI", 3, 1, 0, 50, 40, 7 / 8, "NFC", "NFC North"⟩

theorem c2_witness :
    rEx.wins + rEx.losses + rEx.ties
      = (gamesEx.filter fun g => g.result.isSome).countP
          (fun g => decide (rEx.team_name = g.home_team ∨ rEx.team_name = g.away_team)) :=
  c2_games_played_eq_games_participated (by decide) (List.get_mem _ _ _)

theorem c3_witness :
    (applyGame (fun _ => Stats.zero) gEx gEx.home_team).points_for
        = Stats.zero.points_for + gEx.home_score ∧
    (applyGame (fun _ => Stats.zero) gEx gEx.away_team).points_against
        = Stats.zero.points_against + gEx.home_score ∧
    (applyGame (fun _ => Stats.zero) gEx gEx.away_team).points_for
        = Stats.zero.points_for + gEx.away_score ∧
    (applyGame (fun _ => Stats.zero) gEx gEx.home_team).points_against
        = Stats.zero.points_against + gEx.away_score :=
  (c3_points_deltas_symmetric (fun _ => Stats.zero) gEx).2.2 (by decide)

theorem c4_witness :
    rEx.win_pct = (if 0 < rEx.wins + rEx.losses + rEx.ties then
        ((rEx.wins : ℚ) + (1 / 2) * (rEx.ties : ℚ))
          / ((rEx.wins + rEx.losses + rEx.ties : Nat) : ℚ)
      else 0) ∧
    0 ≤ rEx.win_pct ∧ rEx.win_pct ≤ 1 :=
  c4_win_pct_formula_and_bounds (List.get_mem _ _ _)

theorem c5_witness :
    ((gamesEx.filter fun g => g.result.isSome).foldl applyGame (fun _ => Stats.zero)) "AAA"
      = ((gamesExRev.filter fun g => g.result.isSome).foldl applyGame
          (fun _ => Stats.zero)) "AAA" :=
  c5_fold_perm_invariant gamesEx gamesExRev
    (List.Perm.swap (⟨"AAA", "CCC", 14, 14, some 0⟩ : Game)
      (⟨"AAA", "BBB", 24, 17, some 7⟩ : Game) []) (fun _ => Stats.zero) "AAA"

theorem c7_witness :
    get_bears_summary [] = ⟨"CHI", 0, 0, 0, 0, 0, 0, none, none⟩ ∧
    get_bears_summary [standingChiEx]
      = ⟨standingChiEx.team_name, standingChiEx.wins, standingChiEx.losses,
          standingChiEx.ties, standingChiEx.points_for, standingChiEx.points_against,
          standingChiEx.win_pct, some standingChiEx.conference,
          some standingChiEx.division⟩ :=
  ⟨(c7_summary_filter_or_placeholder []).1 (by simp),
   (c7_summary_filter_or_placeholder [standingChiEx]).2 standingChiEx (by simp) rfl
     (by simp)⟩

theorem c8_witness : 0 < rEx.wins + rEx.losses + rEx.ties :=
  c8_total_games_positive (List.get_mem _ _ _)

theorem c9_witness :
    ([("player_name", "")] : List (String × String)).map Prod.fst
        = cols_to_keep.filter (fun c => dfC9.cols.contains c) ∧
    ∃ row ∈ dfC9.rows, (row "team" == some "CHI") = true ∧
      ([("player_name", "")] : List (String × String))
        = (cols_to_keep.filter (fun c => dfC9.cols.contains c)).map
            (fun c => (c, (row c).getD "")) :=
  c9_roster_fields (by decide)

end NFL
